import Mathlib

/-!
# Verification of `scripts/parse_dat_opt.py`

A shallow embedding of the Concordance OPT/DAT load-file pipeline:
the Opticon image-index parser (`parse_opt_line`, `parse_opt_file`),
the document assembler (`build_documents_from_opt`, `_create_document`),
the Concordance metadata parser (`parse_dat_file`), the cross-validator
(`cross_validate`), the per-dataset report, and the batched remote
update loop of `update_database`.

Lines of text are modelled as `List Char`; machine strings as `String`.
Console output is modelled as the structured content of the printed
report lines.  The remote RPC endpoint of the update loop is modelled
as a function from call index to an abstract response.
-/

namespace ParseDatOpt

/-! ## Python-style string helpers -/

/-- The whitespace characters stripped by Python's `str.strip()`
(ASCII subset: space, tab, newline, carriage return, vertical tab,
form feed). -/
def isPySpace (c : Char) : Bool :=
  c = ' ' || c = '\t' || c = '\n' || c = '\r' || c = Char.ofNat 11 || c = Char.ofNat 12

/-- Python `line.strip()`: drop leading and trailing whitespace. -/
def pyStrip (l : List Char) : List Char :=
  ((l.dropWhile isPySpace).reverse.dropWhile isPySpace).reverse

/-- Python `s.strip(c)` for a single character `c`: drop leading and
trailing occurrences of `c`. -/
def pyStripChar (c : Char) (l : List Char) : List Char :=
  ((l.dropWhile (· = c)).reverse.dropWhile (· = c)).reverse

/-- ASCII decimal digit test (the fragment of Python `str.isdigit`
exercised by the corpus). -/
def isDigitChar (c : Char) : Bool :=
  '0' ≤ c && c ≤ '9'

/-- Python `int(s)` on a string of decimal digits. -/
def natOfDigits (l : List Char) : Nat :=
  l.foldl (fun n c => n * 10 + (c.toNat - 48)) 0

/-! ## Data classes -/

/-- `OPTPage` dataclass: one line of the Opticon image index. -/
structure OPTPage where
  bates_number : String
  volume_label : String
  image_path : String
  document_break : Bool
  page_count_field : Nat
deriving DecidableEq, Repr

/-- `Document` dataclass: one assembled logical document. -/
structure Document where
  efta_start : String
  efta_end : String
  page_count : Nat
  filename : String
  storage_path : String
  file_type : String
  volume_label : String
  pages : List String
deriving DecidableEq, Repr

/-- `DATRecord` dataclass: the `fields` dict is modelled as an
association list in Python-dict insertion order. -/
structure DATRecord where
  fields : List (String × String)
deriving DecidableEq, Repr

/-! ## OPT parser (`parse_opt_line`, `parse_opt_file`) -/

/-- The field-splitting loop of `parse_opt_line`: walk the characters,
toggling `in_quotes` on a double quote and splitting on commas outside
quotes.  `cur` is the current field accumulated in reverse. -/
def splitOptLine : List Char → Bool → List Char → List (List Char)
  | [], _, cur => [cur.reverse]
  | c :: rest, inQ, cur =>
    if c = '"' then splitOptLine rest (!inQ) cur
    else if c = ',' && !inQ then cur.reverse :: splitOptLine rest inQ []
    else splitOptLine rest inQ (c :: cur)

/-- `parse_opt_line(line)`: strip the line, return `none` if blank or
if unquoting yields fewer than four fields, otherwise build the page
record (backslashes in the image path normalised to slashes, the
document-break flag set iff field 3 is `"Y"`, and the page-count hint
defaulting to 1 when absent or non-numeric). -/
def parse_opt_line (line : List Char) : Option OPTPage :=
  let trimmed := pyStrip line
  if trimmed.isEmpty then none
  else
    let parts := splitOptLine trimmed false []
    if parts.length < 4 then none
    else
      let pc_str := if 6 < parts.length && !(parts.getD 6 []).isEmpty
                    then parts.getD 6 [] else ['1']
      some { bates_number := (parts.getD 0 []).asString
             volume_label := (parts.getD 1 []).asString
             image_path := ((parts.getD 2 []).map
               (fun c => if c = '\\' then '/' else c)).asString
             document_break := parts.getD 3 [] = ['Y']
             page_count_field :=
               if !pc_str.isEmpty && pc_str.all isDigitChar
               then natOfDigits pc_str else 1 }

/-- `parse_opt_file`: parse each line in order, collecting the parsed
pages and counting every non-blank unparseable line as one error
(the error count is the printed warning total). -/
def parse_opt_file : List (List Char) → List OPTPage × Nat
  | [] => ([], 0)
  | l :: ls =>
    let rest := parse_opt_file ls
    match parse_opt_line l with
    | some p => (p :: rest.1, rest.2)
    | none => if (pyStrip l).isEmpty then rest else (rest.1, rest.2 + 1)

/-! ## Document assembler (`build_documents_from_opt`, `_create_document`) -/

/-- Python `s.split(sep)` for a single-character separator. -/
def splitChar (sep : Char) : List Char → List (List Char)
  | [] => [[]]
  | c :: rest =>
    if c = sep then [] :: splitChar sep rest
    else
      match splitChar sep rest with
      | f :: fs => (c :: f) :: fs
      | [] => [[c]]

/-- `s.split("/")[-1]`: the final path segment. -/
def lastSegment (s : String) : String :=
  ((splitChar '/' s.toList).getLastD s.toList).asString

/-- `filename.rsplit(".", 1)[-1].lower() if "." in filename else
"unknown"`: the lower-cased extension. -/
def extOf (filename : String) : String :=
  if filename.toList.contains '.'
  then (((splitChar '.' filename.toList).getLastD filename.toList).map Char.toLower).asString
  else "unknown"

/-- `_create_document(pages, volume_base)`: `none` on an empty run,
otherwise the `Document` for the run — boundaries from the first and
last pages, filename/extension from the first page's image path, the
storage path joining the volume base with that image path, and the
page list holding the run's Bates numbers in order. -/
def _create_document (pages : List OPTPage) (volume_base : String) : Option Document :=
  match pages with
  | [] => none
  | first :: rest =>
    let lastPage := rest.getLastD first
    let filename := lastSegment first.image_path
    some { efta_start := first.bates_number
           efta_end := lastPage.bates_number
           page_count := (first :: rest).length
           filename := filename
           storage_path := volume_base ++ "/" ++ first.image_path
           file_type := extOf filename
           volume_label := first.volume_label
           pages := (first :: rest).map OPTPage.bates_number }

/-- The loop body of `build_documents_from_opt`: `current` is the run
of pages accumulated so far (in order); a page whose break flag is set
while the run is non-empty closes the run into a document and starts a
new run with that page, and the final non-empty run is closed at end
of input. -/
def buildDocsAux (volume_base : String) : List OPTPage → List OPTPage → List Document
  | current, [] =>
    (match _create_document current volume_base with
     | some d => [d]
     | none => [])
  | current, page :: rest =>
    if page.document_break && !current.isEmpty then
      (match _create_document current volume_base with
       | some d => [d]
       | none => []) ++ buildDocsAux volume_base [page] rest
    else
      buildDocsAux volume_base (current ++ [page]) rest

/-- `build_documents_from_opt(pages, volume_base)`. -/
def build_documents_from_opt (pages : List OPTPage) (volume_base : String) : List Document :=
  buildDocsAux volume_base [] pages

/-! ## Assembler lemmas -/

theorem create_document_isSome (ps : List OPTPage) (vb : String) (h : ps ≠ []) :
    ∃ d, _create_document ps vb = some d := by
  cases ps with
  | nil => exact absurd rfl h
  | cons p rest => exact ⟨_, rfl⟩

theorem create_document_pages (ps : List OPTPage) (vb : String) (d : Document)
    (h : _create_document ps vb = some d) :
    d.pages = ps.map OPTPage.bates_number ∧ d.page_count = ps.length := by
  cases ps with
  | nil => simp [_create_document] at h
  | cons p rest =>
    simp only [_create_document, Option.some.injEq] at h
    subst h
    constructor <;> rfl

theorem buildDocsAux_flat (vb : String) :
    ∀ (rest current : List OPTPage),
      (buildDocsAux vb current rest).flatMap Document.pages
        = (current ++ rest).map OPTPage.bates_number := by
  intro rest
  induction rest with
  | nil =>
    intro current
    cases current with
    | nil => simp [buildDocsAux, _create_document]
    | cons p ps =>
      obtain ⟨d, hd⟩ := create_document_isSome (p :: ps) vb (by simp)
      obtain ⟨hp, _⟩ := create_document_pages _ _ _ hd
      simp [buildDocsAux, hd, hp]
  | cons page rest ih =>
    intro current
    by_cases hb : page.document_break && !current.isEmpty
    · have hcur : current ≠ [] := by
        rcases Bool.and_eq_true _ _ |>.mp hb with ⟨_, h2⟩
        simpa using h2
      obtain ⟨d, hd⟩ := create_document_isSome current vb hcur
      obtain ⟨hp, _⟩ := create_document_pages _ _ _ hd
      simp [buildDocsAux, hb, hd, hp, ih]
    · simp [buildDocsAux, hb, ih]

theorem buildDocsAux_page_count (vb : String) :
    ∀ (rest current : List OPTPage) (d : Document),
      d ∈ buildDocsAux vb current rest → d.page_count = d.pages.length := by
  intro rest
  induction rest with
  | nil =>
    intro current d hd
    cases current with
    | nil => simp [buildDocsAux, _create_document] at hd
    | cons p ps =>
      obtain ⟨d', hd'⟩ := create_document_isSome (p :: ps) vb (by simp)
      obtain ⟨hp, hc⟩ := create_document_pages _ _ _ hd'
      simp [buildDocsAux, hd'] at hd
      subst hd
      simp [hp, hc]
  | cons page rest ih =>
    intro current d hd
    by_cases hb : page.document_break && !current.isEmpty
    · have hcur : current ≠ [] := by
        rcases Bool.and_eq_true _ _ |>.mp hb with ⟨_, h2⟩
        simpa using h2
      obtain ⟨d', hd'⟩ := create_document_isSome current vb hcur
      obtain ⟨hp, hc⟩ := create_document_pages _ _ _ hd'
      simp [buildDocsAux, hb, hd'] at hd
      rcases hd with hd | hd
      · subst hd; simp [hp, hc]
      · exact ih _ _ hd
    · simp only [buildDocsAux, hb, Bool.false_eq_true, if_false] at hd
      exact ih _ _ hd

theorem create_document_start (c : OPTPage) (cs : List OPTPage) (vb : String)
    (d : Document) (h : _create_document (c :: cs) vb = some d) :
    d.efta_start = c.bates_number ∧ d.pages.head? = some c.bates_number := by
  simp only [_create_document, Option.some.injEq] at h
  subst h
  constructor <;> rfl

theorem create_document_flag (p : OPTPage) (cs : List OPTPage) (vb : String) (b : Bool) :
    _create_document ({ p with document_break := b } :: cs) vb
      = _create_document (p :: cs) vb := by
  cases cs with
  | nil => rfl
  | cons c t =>
    simp only [_create_document, List.getLastD_cons]
    rfl

theorem buildDocsAux_flag (vb : String) :
    ∀ (rest cs : List OPTPage) (p : OPTPage) (b : Bool),
      buildDocsAux vb ({ p with document_break := b } :: cs) rest
        = buildDocsAux vb (p :: cs) rest := by
  intro rest
  induction rest with
  | nil =>
    intro cs p b
    simp [buildDocsAux, create_document_flag]
  | cons page rest ih =>
    intro cs p b
    by_cases hb : page.document_break
    · simp [buildDocsAux, hb, create_document_flag]
    · simpa [buildDocsAux, hb] using ih (cs ++ [page]) p b

theorem buildDocsAux_first (vb : String) :
    ∀ (rest : List OPTPage) (c : OPTPage) (cs : List OPTPage),
      ∃ d ds, buildDocsAux vb (c :: cs) rest = d :: ds
        ∧ d.efta_start = c.bates_number
        ∧ d.pages.head? = some c.bates_number := by
  intro rest
  induction rest with
  | nil =>
    intro c cs
    obtain ⟨d, hd⟩ := create_document_isSome (c :: cs) vb (by simp)
    obtain ⟨h1, h2⟩ := create_document_start c cs vb d hd
    exact ⟨d, [], by simp [buildDocsAux, hd], h1, h2⟩
  | cons page rest ih =>
    intro c cs
    by_cases hb : page.document_break
    · obtain ⟨d, hd⟩ := create_document_isSome (c :: cs) vb (by simp)
      obtain ⟨h1, h2⟩ := create_document_start c cs vb d hd
      exact ⟨d, buildDocsAux vb [page] rest, by simp [buildDocsAux, hb, hd], h1, h2⟩
    · obtain ⟨d, ds, hd, h1, h2⟩ := ih c (cs ++ [page])
      exact ⟨d, ds, by simpa [buildDocsAux, hb] using hd, h1, h2⟩

/-! ## Claim theorems: document assembly -/

/-- **C1**  Partition invariant of document assembly: for every ordered
page sequence, concatenating the page lists of the documents returned
by `build_documents_from_opt`, in order, reproduces exactly the Bates
numbers of the original page sequence, and every returned document's
`page_count` equals the length of its page list. -/
theorem C1_partition_invariant (vb : String) (pages : List OPTPage) :
    (build_documents_from_opt pages vb).flatMap Document.pages
        = pages.map OPTPage.bates_number
      ∧ ∀ d ∈ build_documents_from_opt pages vb, d.page_count = d.pages.length := by
  constructor
  · simpa using buildDocsAux_flat vb pages []
  · intro d hd
    exact buildDocsAux_page_count vb pages [] d hd

/-- The worked example of the page sequence from the specification:
`EFTA001` (break), `EFTA002`, `EFTA003` (break). -/
def pagesEx : List OPTPage :=
  [ { bates_number := "EFTA001", volume_label := "VOL1",
      image_path := "IMAGES/A/1.TIF", document_break := true, page_count_field := 1 },
    { bates_number := "EFTA002", volume_label := "VOL1",
      image_path := "IMAGES/A/2.TIF", document_break := false, page_count_field := 1 },
    { bates_number := "EFTA003", volume_label := "VOL1",
      image_path := "IMAGES/A/3.TIF", document_break := true, page_count_field := 1 } ]

/-- The first document assembled from `pagesEx`. -/
def docEx : Document :=
  { efta_start := "EFTA001", efta_end := "EFTA002", page_count := 2,
    filename := "1.TIF", storage_path := "vol1/IMAGES/A/1.TIF",
    file_type := "tif", volume_label := "VOL1",
    pages := ["EFTA001", "EFTA002"] }

theorem C1_partition_invariant_witness :
    ((build_documents_from_opt pagesEx "vol1").flatMap Document.pages
        = pagesEx.map OPTPage.bates_number)
      ∧ docEx.page_count = docEx.pages.length :=
  ⟨(C1_partition_invariant "vol1" pagesEx).1,
   (C1_partition_invariant "vol1" pagesEx).2 docEx (by decide)⟩

/-- **C5**  First-document edge case: for every non-empty page
sequence the assembler treats the first page as starting the first
document regardless of that page's document-break flag value — the
output is invariant under rewriting the first page's flag — and the
first returned document is non-empty and starts at that page. -/
theorem C5_first_page_flag_ignored (vb : String) (p : OPTPage) (rest : List OPTPage)
    (b : Bool) :
    build_documents_from_opt ({ p with document_break := b } :: rest) vb
        = build_documents_from_opt (p :: rest) vb
      ∧ ∃ d ds, build_documents_from_opt (p :: rest) vb = d :: ds
          ∧ d.efta_start = p.bates_number
          ∧ d.pages.head? = some p.bates_number := by
  have step : ∀ (q : OPTPage) (qs : List OPTPage),
      build_documents_from_opt (q :: qs) vb = buildDocsAux vb [q] qs := by
    intro q qs
    simp [build_documents_from_opt, buildDocsAux]
  constructor
  · rw [step, step]
    exact buildDocsAux_flag vb rest [] p b
  · rw [step]
    exact buildDocsAux_first vb rest p []

/-! ## Claim theorem: OPT parser resilience -/

/-- **C6**  Malformed-line resilience of the image-index parser: a line
whose unquoting yields fewer than four fields parses to `none` rather
than raising; `parse_opt_file` counts each non-blank unparseable line
as one error and silently ignores blank lines; hence a 1,000-line file
with 5 corrupted lines (missing fields) yields exactly 995 parsed
pages and an error count of 5. -/
theorem C6_malformed_line_resilience :
    (∀ line : List Char,
       (splitOptLine (pyStrip line) false []).length < 4 → parse_opt_line line = none)
    ∧ (∀ lines : List (List Char),
        (parse_opt_file lines).2
            = lines.countP (fun l => (parse_opt_line l).isNone && !(pyStrip l).isEmpty)
          ∧ (parse_opt_file lines).1.length
            = lines.countP (fun l => (parse_opt_line l).isSome))
    ∧ (∀ g b : List Char,
        (parse_opt_line g).isSome = true → parse_opt_line b = none →
        (pyStrip b).isEmpty = false →
        (parse_opt_file (List.replicate 995 g ++ List.replicate 5 b)).1.length = 995
          ∧ (parse_opt_file (List.replicate 995 g ++ List.replicate 5 b)).2 = 5) := by
  have hcount : ∀ lines : List (List Char),
      (parse_opt_file lines).2
          = lines.countP (fun l => (parse_opt_line l).isNone && !(pyStrip l).isEmpty)
        ∧ (parse_opt_file lines).1.length
          = lines.countP (fun l => (parse_opt_line l).isSome) := by
    intro lines
    induction lines with
    | nil => simp [parse_opt_file]
    | cons l ls ih =>
      cases h : parse_opt_line l with
      | some p =>
        simp [parse_opt_file, h, List.countP_cons, ih.1, ih.2]
      | none =>
        by_cases hblank : (pyStrip l).isEmpty
        · simp [parse_opt_file, h, hblank, List.countP_cons, ih.1, ih.2]
        · simp [parse_opt_file, h, hblank, List.countP_cons, ih.1, ih.2]
  refine ⟨?_, hcount, ?_⟩
  · intro line hlen
    by_cases hblank : (pyStrip line).isEmpty
    · simp [parse_opt_line, hblank]
    · simp [parse_opt_line, hblank, hlen]
  · intro g b hg hb hbne
    obtain ⟨pg, hpg⟩ := Option.isSome_iff_exists.mp hg
    obtain ⟨he, hp⟩ := hcount (List.replicate 995 g ++ List.replicate 5 b)
    constructor
    · rw [hp, List.countP_append, List.countP_replicate, List.countP_replicate]
      simp [hpg, hb]
    · rw [he, List.countP_append, List.countP_replicate, List.countP_replicate]
      simp [hpg, hb, hbne]

/-- A well-formed OPT line. -/
def goodLineEx : List Char := "EFTA001,VOL1,IMAGES\\A\\1.TIF,Y,,,1".toList

/-- A corrupted OPT line with only two fields. -/
def badLineEx : List Char := "EFTA002,VOL1".toList

theorem C6_malformed_line_resilience_witness :
    parse_opt_line badLineEx = none
    ∧ (parse_opt_file (List.replicate 995 goodLineEx ++ List.replicate 5 badLineEx)).1.length
        = 995
    ∧ (parse_opt_file (List.replicate 995 goodLineEx ++ List.replicate 5 badLineEx)).2 = 5 :=
  ⟨C6_malformed_line_resilience.1 badLineEx (by decide),
   (C6_malformed_line_resilience.2.2 goodLineEx badLineEx (by decide) (by decide)
     (by decide)).1,
   (C6_malformed_line_resilience.2.2 goodLineEx badLineEx (by decide) (by decide)
     (by decide)).2⟩

/-! ## DAT parser (`parse_dat_file`) -/

/-- The DAT field separator, `U+00FE`. -/
def THORN : Char := Char.ofNat 0xFE

/-- The DAT text qualifier, `0x14`. -/
def TEXT_QUAL : Char := Char.ofNat 0x14

/-- Python `row.split(THORN + TEXT_QUAL + THORN)`: split on the
leftmost non-overlapping occurrences of the three-character
separator. -/
def splitDat : List Char → List (List Char)
  | a :: b :: c :: rest =>
    if a = THORN ∧ b = TEXT_QUAL ∧ c = THORN then
      [] :: splitDat rest
    else
      match splitDat (b :: c :: rest) with
      | f :: fs => (a :: f) :: fs
      | [] => [[a]]
  | [a, b] => [[a, b]]
  | [a] => [[a]]
  | [] => [[]]
termination_by l => l.length

/-- One step of `record[col] = value` on a Python dict in insertion
order: overwrite in place if the key exists, else append. -/
def dictInsert (d : List (String × String)) (k v : String) : List (String × String) :=
  if d.any (fun p => p.1 == k) then
    d.map (fun p => if p.1 == k then (k, v) else p)
  else d ++ [(k, v)]

/-- The record-building loop
`for i, col in enumerate(columns): record[col] = values[i] if i < len(values) else ""`,
with `i` the index of the next column. -/
def buildRecordAux (d : List (String × String)) :
    Nat → List String → List String → List (String × String)
  | _, [], _ => d
  | i, col :: cols, values =>
    buildRecordAux (dictInsert d col (values.getD i "")) (i + 1) cols values

/-- The record built from the declared columns and a line's values. -/
def buildRecord (columns values : List String) : List (String × String) :=
  buildRecordAux [] 0 columns values

/-- The body loop of `parse_dat_file`: strip each line, skip blanks,
strip thorns, split into values, and build one record per line. -/
def parseDatBody (columns : List String) : List (List Char) → List DATRecord
  | [] => []
  | line :: rest =>
    let l := pyStrip line
    if l.isEmpty then parseDatBody columns rest
    else
      DATRecord.mk
          (buildRecord columns ((splitDat (pyStripChar THORN l)).map List.asString))
        :: parseDatBody columns rest

/-- `parse_dat_file`: header line declares the columns, each later
non-blank line yields one record. -/
def parse_dat_file (lines : List (List Char)) : List String × List DATRecord :=
  match lines with
  | [] => ([], [])
  | header :: body =>
    let columns := (splitDat (pyStripChar THORN (pyStrip header))).map List.asString
    (columns, parseDatBody columns body)

/-! ## Cross-validation (`cross_validate`) -/

/-- Python `rec.fields.get(key, "")`. -/
def recGet (r : DATRecord) (k : String) : String :=
  match r.fields.find? (fun p => p.1 == k) with
  | some p => p.2
  | none => ""

/-- Whether one positional document/record pair agrees on both
boundary identifiers (the loop body of `cross_validate`). -/
def pairMatches (doc : Document) (rec : DATRecord) : Bool :=
  doc.efta_start == recGet rec "Begin Bates" && doc.efta_end == recGet rec "End Bates"

/-- `cross_validate(documents, dat_records)`: false on a count
mismatch, else true iff every positional pair agrees on the begin and
end boundary identifiers. -/
def cross_validate (documents : List Document) (dat_records : List DATRecord) : Bool :=
  if documents.length ≠ dat_records.length then false
  else (documents.zip dat_records).all fun dr => pairMatches dr.1 dr.2

/-! ## Claim theorems: cross-validation -/

/-- A metadata record whose begin/end fields are generated directly
from an assembled document. -/
def recOfDoc (d : Document) : DATRecord :=
  ⟨[("Begin Bates", d.efta_start), ("End Bates", d.efta_end)]⟩

theorem recOfDoc_begin (d : Document) : recGet (recOfDoc d) "Begin Bates" = d.efta_start :=
  rfl

theorem recOfDoc_end (d : Document) : recGet (recOfDoc d) "End Bates" = d.efta_end :=
  rfl

theorem zip_map_recOfDoc_all (ds : List Document) :
    (ds.zip (ds.map recOfDoc)).all (fun dr => pairMatches dr.1 dr.2) = true := by
  induction ds with
  | nil => rfl
  | cons d ds ih =>
    simp only [List.map_cons, List.zip_cons_cons, List.all_cons, ih, Bool.and_true]
    simp [pairMatches, recOfDoc_begin, recOfDoc_end]

/-- **C2**  Cross-validation rule: `cross_validate` returns true iff
the two lists have equal length and every positional pair agrees
exactly (string equality) on the begin/end boundary identifiers; in
particular it returns true when the metadata records are generated
directly from the assembled documents. -/
theorem C2_cross_validate_iff :
    (∀ (documents : List Document) (dat_records : List DATRecord),
       cross_validate documents dat_records = true ↔
         (documents.length = dat_records.length ∧
          ∀ dr ∈ documents.zip dat_records,
            dr.1.efta_start = recGet dr.2 "Begin Bates"
              ∧ dr.1.efta_end = recGet dr.2 "End Bates"))
    ∧ ∀ documents : List Document,
        cross_validate documents (documents.map recOfDoc) = true := by
  constructor
  · intro documents dat_records
    by_cases h : documents.length = dat_records.length
    · simp [cross_validate, h, List.all_eq_true, pairMatches]
    · simp [cross_validate, h]
  · intro documents
    simp [cross_validate, zip_map_recOfDoc_all]

theorem C2_cross_validate_iff_witness :
    cross_validate [docEx] ([docEx].map recOfDoc) = true :=
  C2_cross_validate_iff.2 [docEx]

theorem recGet_of_no_binding (r : DATRecord) (k : String)
    (h : r.fields.find? (fun p => p.1 == k) = none) : recGet r k = "" := by
  simp [recGet, h]

theorem zip_all_of_no_bates_keys :
    ∀ (ds : List Document) (rs : List DATRecord), ds.length = rs.length →
      (∀ r ∈ rs, ∀ p ∈ r.fields, p.1 ≠ "Begin Bates" ∧ p.1 ≠ "End Bates") →
      ((ds.zip rs).all (fun dr => pairMatches dr.1 dr.2) = true ↔
        ∀ d ∈ ds, d.efta_start = "" ∧ d.efta_end = "") := by
  intro ds
  induction ds with
  | nil =>
    intro rs hlen _
    cases rs with
    | nil => simp
    | cons r rs => simp at hlen
  | cons d ds ih =>
    intro rs hlen hkeys
    cases rs with
    | nil => simp at hlen
    | cons r rs =>
      have hb : recGet r "Begin Bates" = "" := by
        refine recGet_of_no_binding r _ (List.find?_eq_none.mpr ?_)
        intro p hp
        simpa using (hkeys r (by simp) p hp).1
      have he : recGet r "End Bates" = "" := by
        refine recGet_of_no_binding r _ (List.find?_eq_none.mpr ?_)
        intro p hp
        simpa using (hkeys r (by simp) p hp).2
      have hrest := ih rs (by simpa using hlen)
        (fun r' hr' => hkeys r' (by simp [hr']))
      have hpair : pairMatches d r = true ↔ (d.efta_start = "" ∧ d.efta_end = "") := by
        simp [pairMatches, hb, he]
      rw [List.zip_cons_cons, List.all_cons, Bool.and_eq_true, hpair, hrest,
        List.forall_mem_cons]

/-- **C9**  Cross-validation keys are hardcoded: `cross_validate`
reads each record's fields under exactly the column names
`"Begin Bates"` and `"End Bates"`; a record lacking a key contributes
the empty string, so equal-length inputs whose metadata uses any other
column names validate true exactly when every document's start/end
boundary identifiers are themselves empty strings. -/
theorem C9_hardcoded_keys :
    (∀ (r : DATRecord) (k : String),
       r.fields.find? (fun p => p.1 == k) = none → recGet r k = "")
    ∧ (∀ (documents : List Document) (dat_records : List DATRecord),
        documents.length = dat_records.length →
        (∀ r ∈ dat_records, ∀ p ∈ r.fields,
          p.1 ≠ "Begin Bates" ∧ p.1 ≠ "End Bates") →
        (cross_validate documents dat_records = true ↔
          ∀ d ∈ documents, d.efta_start = "" ∧ d.efta_end = "")) := by
  refine ⟨recGet_of_no_binding, ?_⟩
  intro documents dat_records hlen hkeys
  rw [cross_validate, if_neg (by simp [hlen])]
  exact zip_all_of_no_bates_keys documents dat_records hlen hkeys

/-- A document whose boundary identifiers are empty. -/
def emptyDoc : Document :=
  { efta_start := "", efta_end := "", page_count := 0, filename := "",
    storage_path := "", file_type := "", volume_label := "", pages := [] }

/-- A metadata record that uses a column name other than the
hardcoded Bates keys. -/
def otherRec : DATRecord :=
  ⟨[("Custodian", "x")]⟩

theorem C9_hardcoded_keys_witness :
    cross_validate [emptyDoc] [otherRec] = true :=
  (C9_hardcoded_keys.2 [emptyDoc] [otherRec] rfl (by decide)).mpr (by decide)

/-! ## Record-dictionary lemmas -/

theorem countP_map_update_self (d : List (String × String)) (k v : String) :
    (d.map (fun p => if p.1 == k then (k, v) else p)).countP (fun p => p.1 == k)
      = d.countP (fun p => p.1 == k) := by
  rw [List.countP_map]
  refine List.countP_congr ?_
  intro q _
  by_cases hq : q.1 == k <;> simp [Function.comp, hq]

theorem countP_map_update_other (d : List (String × String)) (k v k' : String)
    (hne : (k == k') = false) :
    (d.map (fun p => if p.1 == k then (k, v) else p)).countP (fun p => p.1 == k')
      = d.countP (fun p => p.1 == k') := by
  rw [List.countP_map]
  refine List.countP_congr ?_
  intro q _
  by_cases hq : q.1 == k
  · have : q.1 = k := eq_of_beq hq
    simp [Function.comp, hq, this, hne]
  · simp [Function.comp, hq]

theorem dictInsert_countP_self (d : List (String × String)) (k v : String)
    (h : d.countP (fun p => p.1 == k) ≤ 1) :
    (dictInsert d k v).countP (fun p => p.1 == k) = 1 := by
  by_cases hany : d.any (fun p => p.1 == k)
  · rw [dictInsert, if_pos hany, countP_map_update_self]
    have hpos : 0 < d.countP (fun p => p.1 == k) := by
      rw [List.countP_pos_iff]
      exact List.any_eq_true.mp hany
    omega
  · rw [dictInsert, if_neg hany, List.countP_append]
    have hzero : d.countP (fun p => p.1 == k) = 0 := by
      rw [List.countP_eq_zero]
      intro a ha hx
      exact hany (List.any_eq_true.mpr ⟨a, ha, hx⟩)
    simp [hzero, List.countP_cons]

theorem dictInsert_countP_other (d : List (String × String)) (k v k' : String)
    (hne : (k == k') = false) :
    (dictInsert d k v).countP (fun p => p.1 == k')
      = d.countP (fun p => p.1 == k') := by
  by_cases hany : d.any (fun p => p.1 == k)
  · rw [dictInsert, if_pos hany, countP_map_update_other d k v k' hne]
  · rw [dictInsert, if_neg hany, List.countP_append]
    simp [List.countP_cons, hne]

theorem find?_map_update (d : List (String × String)) (k v k' : String)
    (hne : (k == k') = false) :
    (d.map (fun p => if p.1 == k then (k, v) else p)).find? (fun p => p.1 == k')
      = d.find? (fun p => p.1 == k') := by
  have hfun : ((fun p => p.1 == k') ∘ (fun p : String × String =>
      if p.1 == k then (k, v) else p)) = fun p : String × String => p.1 == k' := by
    funext q
    cases hq : q.1 == k with
    | true =>
      have hqk : q.1 = k := eq_of_beq hq
      simp [Function.comp, hq, hqk, hne]
    | false => simp [Function.comp, hq]
  rw [List.find?_map, hfun]
  cases hf : d.find? (fun p => p.1 == k') with
  | none => rfl
  | some a =>
    have hp := List.find?_some hf
    have hane : a.1 ≠ k := by
      have h1 : a.1 = k' := eq_of_beq hp
      intro h2
      rw [h1] at h2
      rw [← h2] at hne
      simp at hne
    simp [hane]

theorem find?_dictInsert_self (d : List (String × String)) (k v : String) :
    (dictInsert d k v).find? (fun p => p.1 == k) = some (k, v) := by
  by_cases hany : d.any (fun p => p.1 == k)
  · rw [dictInsert, if_pos hany]
    have hfun : ((fun p => p.1 == k) ∘ (fun p : String × String =>
        if p.1 == k then (k, v) else p)) = fun p : String × String => p.1 == k := by
      funext q
      cases hq : q.1 == k with
      | true => simp [Function.comp, hq]
      | false => simp [Function.comp, hq]
    rw [List.find?_map, hfun]
    obtain ⟨a, ha⟩ : ∃ a, d.find? (fun p => p.1 == k) = some a := by
      refine Option.isSome_iff_exists.mp ?_
      rw [List.find?_isSome]
      exact List.any_eq_true.mp hany
    have hak := List.find?_some ha
    have hak' : a.1 = k := eq_of_beq hak
    simp [ha, hak']
  · rw [dictInsert, if_neg hany, List.find?_append]
    have hnone : d.find? (fun p => p.1 == k) = none := by
      rw [List.find?_eq_none]
      intro x hx hpx
      exact hany (List.any_eq_true.mpr ⟨x, hx, hpx⟩)
    simp [hnone, List.find?_cons]

theorem find?_dictInsert_other (d : List (String × String)) (k v k' : String)
    (hne : (k == k') = false) :
    (dictInsert d k v).find? (fun p => p.1 == k') = d.find? (fun p => p.1 == k') := by
  by_cases hany : d.any (fun p => p.1 == k)
  · rw [dictInsert, if_pos hany, find?_map_update d k v k' hne]
  · rw [dictInsert, if_neg hany, List.find?_append]
    simp [List.find?_cons, hne]

theorem mem_dictInsert (p : String × String) (d : List (String × String)) (k v : String)
    (h : p ∈ dictInsert d k v) : p ∈ d ∨ p.1 = k := by
  by_cases hany : d.any (fun q => q.1 == k)
  · rw [dictInsert, if_pos hany] at h
    obtain ⟨q, hq, hfq⟩ := List.mem_map.mp h
    by_cases hqk : q.1 == k
    · right
      rw [if_pos hqk] at hfq
      rw [← hfq]
    · left
      rw [if_neg hqk] at hfq
      rw [← hfq]
      exact hq
  · rw [dictInsert, if_neg hany] at h
    rcases List.mem_append.mp h with h | h
    · exact Or.inl h
    · right
      have : p = (k, v) := by simpa using h
      rw [this]

/-! ## Record-building lemmas -/

theorem buildRecordAux_congr :
    ∀ (cols : List String) (i : Nat) (d : List (String × String)) (v w : List String),
      (∀ j, i ≤ j → j < i + cols.length → v.getD j "" = w.getD j "") →
      buildRecordAux d i cols v = buildRecordAux d i cols w := by
  intro cols
  induction cols with
  | nil => intro i d v w _; rfl
  | cons col cols ih =>
    intro i d v w h
    simp only [buildRecordAux]
    rw [h i le_rfl (by simp only [List.length_cons]; omega)]
    exact ih (i + 1) _ v w
      (fun j h1 h2 => h j (by omega) (by simp only [List.length_cons]; omega))

theorem buildRecordAux_countP :
    ∀ (cols : List String) (i : Nat) (d : List (String × String)) (v : List String)
      (k : String),
      (∀ k', d.countP (fun p => p.1 == k') ≤ 1) →
      (k ∈ cols ∨ d.countP (fun p => p.1 == k) = 1) →
      (buildRecordAux d i cols v).countP (fun p => p.1 == k) = 1 := by
  intro cols
  induction cols with
  | nil =>
    intro i d v k _ hk
    rcases hk with hk | hk
    · simp at hk
    · simpa [buildRecordAux] using hk
  | cons col cols ih =>
    intro i d v k hinv hk
    simp only [buildRecordAux]
    have hinv' : ∀ k', (dictInsert d col (v.getD i "")).countP (fun p => p.1 == k') ≤ 1 := by
      intro k'
      by_cases hc : col = k'
      · subst hc
        rw [dictInsert_countP_self d col _ (hinv col)]
      · rw [dictInsert_countP_other d col _ k' (beq_eq_false_iff_ne.mpr hc)]
        exact hinv k'
    apply ih (i + 1) _ v k hinv'
    rcases hk with hk | hk
    · rcases List.mem_cons.mp hk with hk | hk
      · subst hk
        exact Or.inr (dictInsert_countP_self d k _ (hinv k))
      · exact Or.inl hk
    · by_cases hc : col = k
      · subst hc
        exact Or.inr (dictInsert_countP_self d col _ (hinv col))
      · refine Or.inr ?_
        rw [dictInsert_countP_other d col _ k (beq_eq_false_iff_ne.mpr hc)]
        exact hk

theorem buildRecordAux_fst_mem :
    ∀ (cols : List String) (i : Nat) (d : List (String × String)) (v : List String)
      (p : String × String), p ∈ buildRecordAux d i cols v → p ∈ d ∨ p.1 ∈ cols := by
  intro cols
  induction cols with
  | nil =>
    intro i d v p hp
    exact Or.inl (by simpa [buildRecordAux] using hp)
  | cons col cols ih =>
    intro i d v p hp
    simp only [buildRecordAux] at hp
    rcases ih (i + 1) _ v p hp with h | h
    · rcases mem_dictInsert p d col _ h with h' | h'
      · exact Or.inl h'
      · exact Or.inr (by simp [h'])
    · exact Or.inr (by simp [h])

theorem buildRecordAux_find?_not_mem :
    ∀ (cols : List String) (i : Nat) (d : List (String × String)) (v : List String)
      (k : String), k ∉ cols →
      (buildRecordAux d i cols v).find? (fun p => p.1 == k)
        = d.find? (fun p => p.1 == k) := by
  intro cols
  induction cols with
  | nil => intro i d v k _; rfl
  | cons col cols ih =>
    intro i d v k hk
    have h1 : k ≠ col := fun h => hk (by simp [h])
    have h2 : k ∉ cols := fun h => hk (by simp [h])
    simp only [buildRecordAux]
    rw [ih (i + 1) _ v k h2,
      find?_dictInsert_other d col _ k (beq_eq_false_iff_ne.mpr (fun h => h1 h.symm))]

theorem recGet_eq_of_find? (fields : List (String × String)) (k : String)
    (p : String × String) (h : fields.find? (fun q => q.1 == k) = some p) :
    recGet ⟨fields⟩ k = p.2 := by
  simp [recGet, h]

theorem buildRecordAux_recGet :
    ∀ (cols : List String) (i : Nat) (d : List (String × String)) (v : List String)
      (j : Nat), cols.Nodup → j < cols.length →
      recGet ⟨buildRecordAux d i cols v⟩ (cols.getD j "") = v.getD (i + j) "" := by
  intro cols
  induction cols with
  | nil =>
    intro i d v j _ hj
    simp at hj
  | cons col cols ih =>
    intro i d v j hnd hj
    obtain ⟨hcol, hnd'⟩ := List.nodup_cons.mp hnd
    cases j with
    | zero =>
      have hf : (buildRecordAux (dictInsert d col (v.getD i "")) (i + 1) cols v).find?
          (fun p => p.1 == col) = some (col, v.getD i "") := by
        rw [buildRecordAux_find?_not_mem cols (i + 1) _ v col hcol, find?_dictInsert_self]
      simp only [buildRecordAux, List.getD_cons_zero]
      rw [recGet_eq_of_find? _ col _ hf]
      simp
    | succ j =>
      simp only [buildRecordAux, List.getD_cons_succ]
      rw [ih (i + 1) _ v j hnd' (by simpa using hj)]
      congr 1
      omega

theorem getD_pad (L : Nat) (v : List String) (j : Nat) (hj : j < L) :
    v.getD j "" = (v.take L ++ List.replicate (L - v.length) "").getD j "" := by
  by_cases hjv : j < v.length
  · rw [List.getD_append _ _ _ j (by simp [List.length_take]; omega)]
    rw [List.getD_eq_getElem?_getD, List.getD_eq_getElem?_getD, List.getElem?_take,
      if_pos hj]
  · have hvj : v.length ≤ j := Nat.le_of_not_lt hjv
    rw [List.getD_eq_default _ _ hvj]
    rw [List.getD_append_right _ _ _ j (by simp [List.length_take]; omega)]
    rw [List.getD_eq_getElem?_getD, List.getElem?_replicate]
    split <;> rfl

theorem parseDatBody_eq (columns : List String) :
    ∀ lines : List (List Char),
      parseDatBody columns lines
        = (lines.filter (fun l => !(pyStrip l).isEmpty)).map (fun l =>
            DATRecord.mk (buildRecord columns
              ((splitDat (pyStripChar THORN (pyStrip l))).map List.asString))) := by
  intro lines
  induction lines with
  | nil => rfl
  | cons l ls ih =>
    by_cases hl : (pyStrip l).isEmpty
    · simp [parseDatBody, hl, List.filter_cons, ih]
    · simp [parseDatBody, hl, List.filter_cons, ih]

/-! ## Claim theorems: DAT record shape -/

/-- **C8**  Truncated metadata records: the body loop of
`parse_dat_file` skips blank lines and never rejects a record line;
the built record is unchanged when the value list is padded with empty
strings to the declared column count (missing trailing fields read as
`""`); every declared column has exactly one binding in the record;
and (for distinct columns) a column beyond the value list's length is
bound to the empty string. -/
theorem C8_truncated_records :
    (∀ (columns : List String) (lines : List (List Char)),
       parseDatBody columns lines
         = (lines.filter (fun l => !(pyStrip l).isEmpty)).map (fun l =>
             DATRecord.mk (buildRecord columns
               ((splitDat (pyStripChar THORN (pyStrip l))).map List.asString))))
    ∧ (∀ columns values : List String,
        buildRecord columns values
          = buildRecord columns
              (values.take columns.length
                ++ List.replicate (columns.length - values.length) ""))
    ∧ (∀ (columns values : List String) (col : String), col ∈ columns →
        (buildRecord columns values).countP (fun p => p.1 == col) = 1)
    ∧ (∀ (columns values : List String), columns.Nodup →
        ∀ j, j < columns.length → values.length ≤ j →
          recGet ⟨buildRecord columns values⟩ (columns.getD j "") = "") := by
  refine ⟨fun columns => parseDatBody_eq columns, ?_, ?_, ?_⟩
  · intro columns values
    exact buildRecordAux_congr columns 0 [] values _
      (fun j _ h2 => getD_pad columns.length values j (by omega))
  · intro columns values col hcol
    exact buildRecordAux_countP columns 0 [] values col (by simp) (Or.inl hcol)
  · intro columns values hnd j hj hvj
    rw [buildRecord, buildRecordAux_recGet columns 0 [] values j hnd hj]
    exact List.getD_eq_default _ _ (by omega)

theorem C8_truncated_records_witness :
    (buildRecord ["Begin Bates", "End Bates"] ["EFTA001"]).countP
        (fun p => p.1 == "End Bates") = 1
    ∧ recGet ⟨buildRecord ["Begin Bates", "End Bates"] ["EFTA001"]⟩
        (["Begin Bates", "End Bates"].getD 1 "") = "" :=
  ⟨C8_truncated_records.2.2.1 ["Begin Bates", "End Bates"] ["EFTA001"] "End Bates"
     (by decide),
   C8_truncated_records.2.2.2 ["Begin Bates", "End Bates"] ["EFTA001"] (by decide) 1
     (by decide) (by decide)⟩

/-- **C10**  Extra metadata values are silently discarded: a record
line with more values than declared columns builds the same record as
its truncation to the column count; every binding in a built record is
keyed by a declared column; (for distinct columns) each column is
bound to the value at its position; and every non-blank body line
yields a record — surplus values are not reported as an error. -/
theorem C10_extra_values_discarded :
    (∀ columns values : List String, columns.length < values.length →
       buildRecord columns values = buildRecord columns (values.take columns.length))
    ∧ (∀ (columns values : List String), ∀ p ∈ buildRecord columns values, p.1 ∈ columns)
    ∧ (∀ (columns values : List String), columns.Nodup →
        ∀ j, j < columns.length →
          recGet ⟨buildRecord columns values⟩ (columns.getD j "") = values.getD j "")
    ∧ (∀ (columns : List String) (lines : List (List Char)),
        (parseDatBody columns lines).length
          = lines.countP (fun l => !(pyStrip l).isEmpty)) := by
  refine ⟨?_, ?_, ?_, ?_⟩
  · intro columns values _
    refine buildRecordAux_congr columns 0 [] values _ ?_
    intro j _ h2
    rw [List.getD_eq_getElem?_getD, List.getD_eq_getElem?_getD, List.getElem?_take,
      if_pos (by omega)]
  · intro columns values p hp
    rcases buildRecordAux_fst_mem columns 0 [] values p hp with h | h
    · simp at h
    · exact h
  · intro columns values hnd j hj
    rw [buildRecord, buildRecordAux_recGet columns 0 [] values j hnd hj, Nat.zero_add]
  · intro columns lines
    rw [parseDatBody_eq, List.length_map, List.countP_eq_length_filter]

theorem C10_extra_values_discarded_witness :
    buildRecord ["Begin Bates", "End Bates"] ["A", "B", "C"]
        = buildRecord ["Begin Bates", "End Bates"] (["A", "B", "C"].take 2)
    ∧ recGet ⟨buildRecord ["Begin Bates", "End Bates"] ["A", "B", "C"]⟩
        (["Begin Bates", "End Bates"].getD 1 "") = ["A", "B", "C"].getD 1 "" :=
  ⟨C10_extra_values_discarded.1 ["Begin Bates", "End Bates"] ["A", "B", "C"] (by decide),
   C10_extra_values_discarded.2.2.1 ["Begin Bates", "End Bates"] ["A", "B", "C"]
     (by decide) 1 (by decide)⟩

/-! ## Remote update loop (`update_database`)

The batched-RPC update loop of `update_database` is modelled against
an abstract endpoint `ep : Nat → RpcResponse` giving the response to
the n-th HTTP call for a dataset.  The loop state is the next call
index (`idx`, equal to the number of calls issued so far when starting
from 0), the `consecutive_failures` counter (`cf`), and the
accumulated `ds_total`.  Fuel bounds the number of `while` iterations;
all theorems hold for every sufficient fuel. -/

/-- A response of the `mark_dat_validated` RPC endpoint to one call. -/
inductive RpcResponse where
  | ok (count : Nat)
  | notFound
  | serverErr
  | timedOut
  | otherErr
deriving DecidableEq, Repr

/-- Whether a response is a retryable per-call failure: anything that
is neither an HTTP 200 success nor the fatal missing-RPC 404 (the
latter aborts the whole update run by design). -/
def RpcResponse.isRetryFail : RpcResponse → Bool
  | .ok _ => false
  | .notFound => false
  | _ => true

/-- Outcome of one batch (the `for attempt in range(3)` retry loop). -/
inductive BatchResult where
  | success (count : Nat)
  | rpcMissing
  | failed
deriving DecidableEq, Repr

/-- The `for attempt in range(3)` retry loop: each attempt issues one
call; a 200 stops with its count, a 404 stops the whole run, anything
else consumes the attempt.  Returns the batch outcome and the next
call index. -/
def attemptLoop (ep : Nat → RpcResponse) : Nat → Nat → BatchResult × Nat
  | idx, 0 => (.failed, idx)
  | idx, n + 1 =>
    match ep idx with
    | .ok c => (.success c, idx + 1)
    | .notFound => (.rpcMissing, idx + 1)
    | _ => attemptLoop ep (idx + 1) n

/-- One batch with the per-call retry budget of 3 attempts. -/
def tryBatch (ep : Nat → RpcResponse) (idx : Nat) : BatchResult × Nat :=
  attemptLoop ep idx 3

/-- Final state of one dataset's update loop, carrying the accumulated
updated total and the number of calls issued. -/
inductive LoopResult where
  | done (total calls : Nat)
  | aborted (total calls : Nat)
  | missing (total calls : Nat)
  | outOfFuel (total calls : Nat)
deriving DecidableEq, Repr

/-- The `while consecutive_failures < 5` loop of `update_database` for
one dataset: a failed batch increments the failure counter; a
successful batch with count 0 completes; a successful batch with a
positive count resets the counter and accumulates the total. -/
def updateLoop (ep : Nat → RpcResponse) : Nat → Nat → Nat → Nat → LoopResult
  | fuel, idx, cf, total =>
    if 5 ≤ cf then .aborted total idx
    else
      match fuel with
      | 0 => .outOfFuel total idx
      | f + 1 =>
        match tryBatch ep idx with
        | (.rpcMissing, i) => .missing total i
        | (.failed, i) => updateLoop ep f i (cf + 1) total
        | (.success c, i) =>
          if c = 0 then .done total i else updateLoop ep f i 0 (total + c)

/-- The per-dataset iteration of `update_database`: each dataset runs
its own update loop; a missing RPC returns from the whole function,
any other outcome moves on to the next dataset. -/
def update_database (ep : Nat → Nat → RpcResponse) (fuel : Nat) :
    List Nat → List (Nat × LoopResult)
  | [] => []
  | ds :: rest =>
    let r := updateLoop (ep ds) fuel 0 0 0
    (ds, r) ::
      (match r with
       | .missing _ _ => []
       | _ => update_database ep fuel rest)

/-! ## Update-loop lemmas -/

theorem updateLoop_stop (ep : Nat → RpcResponse) (fuel idx cf total : Nat)
    (h : 5 ≤ cf) : updateLoop ep fuel idx cf total = .aborted total idx := by
  cases fuel with
  | zero =>
    rw [updateLoop]
    rw [if_pos h]
  | succ f =>
    rw [updateLoop]
    rw [if_pos h]

theorem updateLoop_succ (ep : Nat → RpcResponse) (f idx cf total : Nat) (hcf : cf < 5) :
    updateLoop ep (f + 1) idx cf total =
      match tryBatch ep idx with
      | (.rpcMissing, i) => .missing total i
      | (.failed, i) => updateLoop ep f i (cf + 1) total
      | (.success c, i) =>
        if c = 0 then .done total i else updateLoop ep f i 0 (total + c) := by
  rw [updateLoop]
  rw [if_neg (by omega)]

theorem attemptLoop_fail (ep : Nat → RpcResponse)
    (hfail : ∀ i, (ep i).isRetryFail = true) :
    ∀ (n idx : Nat), attemptLoop ep idx n = (.failed, idx + n) := by
  intro n
  induction n with
  | zero => intro idx; simp [attemptLoop]
  | succ n ih =>
    intro idx
    have h := hfail idx
    cases hep : ep idx with
    | ok c => rw [hep] at h; simp [RpcResponse.isRetryFail] at h
    | notFound => rw [hep] at h; simp [RpcResponse.isRetryFail] at h
    | serverErr =>
      rw [attemptLoop, hep, ih (idx + 1)]
      have harith : idx + 1 + n = idx + (n + 1) := by omega
      rw [harith]
    | timedOut =>
      rw [attemptLoop, hep, ih (idx + 1)]
      have harith : idx + 1 + n = idx + (n + 1) := by omega
      rw [harith]
    | otherErr =>
      rw [attemptLoop, hep, ih (idx + 1)]
      have harith : idx + 1 + n = idx + (n + 1) := by omega
      rw [harith]

theorem updateLoop_fail_aux (ep : Nat → RpcResponse)
    (hfail : ∀ i, (ep i).isRetryFail = true) :
    ∀ (k fuel idx cf total : Nat), cf + k = 5 → k ≤ fuel →
      updateLoop ep fuel idx cf total = .aborted total (idx + 3 * k) := by
  intro k
  induction k with
  | zero =>
    intro fuel idx cf total hcf _
    rw [updateLoop_stop ep fuel idx cf total (by omega)]
    have harith : idx = idx + 3 * 0 := by omega
    rw [← harith]
  | succ k ih =>
    intro fuel idx cf total hcf hfuel
    cases fuel with
    | zero => omega
    | succ f =>
      rw [updateLoop_succ ep f idx cf total (by omega)]
      have ht : tryBatch ep idx = (.failed, idx + 3) := attemptLoop_fail ep hfail 3 idx
      rw [ht]
      show updateLoop ep f (idx + 3) (cf + 1) total = _
      rw [ih f (idx + 3) (cf + 1) total (by omega) (by omega)]
      have harith : idx + 3 + 3 * k = idx + 3 * (k + 1) := by omega
      rw [harith]

/-! ## Claim theorems: update loop -/

/-- **C3**  Circuit breaker of the update loop: when every call for a
dataset fails with a retryable failure (any failure other than the
missing-RPC 404, which by design aborts the whole run), the
per-dataset loop issues exactly 3 × 5 = 15 calls, halts that dataset
as aborted/partial with nothing updated, and the subsequent datasets
in the results list are still processed. -/
theorem C3_circuit_breaker (ep : Nat → Nat → RpcResponse) (ds : Nat)
    (rest : List Nat) (fuel : Nat)
    (hfail : ∀ i, ((ep ds) i).isRetryFail = true) (hfuel : 5 ≤ fuel) :
    update_database ep fuel (ds :: rest)
      = (ds, .aborted 0 15) :: update_database ep fuel rest := by
  have hloop : updateLoop (ep ds) fuel 0 0 0 = .aborted 0 15 := by
    have h := updateLoop_fail_aux (ep ds) hfail 5 fuel 0 0 0 (by omega) (by omega)
    simpa using h
  rw [update_database]
  simp only [hloop]

theorem C3_circuit_breaker_witness :
    update_database (fun _ _ => RpcResponse.serverErr) 5 [1, 2]
      = (1, LoopResult.aborted 0 15)
        :: update_database (fun _ _ => RpcResponse.serverErr) 5 [2] :=
  C3_circuit_breaker (fun _ _ => RpcResponse.serverErr) 1 [2] 5 (fun _ => rfl)
    (by omega)

/-- **C4**  Update-loop convergence: when the endpoint's first three
calls return `batch_size`, `batch_size`, then `0` affected rows (with
`batch_size` positive), the per-dataset loop performs exactly 3 calls,
terminates in the DONE state, and accumulates a total of
`2 × batch_size`. -/
theorem C4_update_loop_convergence (ep : Nat → RpcResponse) (B fuel : Nat)
    (h0 : ep 0 = .ok B) (h1 : ep 1 = .ok B) (h2 : ep 2 = .ok 0)
    (hB : 0 < B) (hfuel : 3 ≤ fuel) :
    updateLoop ep fuel 0 0 0 = .done (2 * B) 3 := by
  have hBne : ¬B = 0 := by omega
  have t0 : tryBatch ep 0 = (.success B, 1) := by
    rw [tryBatch, attemptLoop, h0]
  have t1 : tryBatch ep 1 = (.success B, 2) := by
    rw [tryBatch, attemptLoop, h1]
  have t2 : tryBatch ep 2 = (.success 0, 3) := by
    rw [tryBatch, attemptLoop, h2]
  obtain ⟨f, rfl⟩ : ∃ f, fuel = f + 2 + 1 := ⟨fuel - 3, by omega⟩
  rw [updateLoop_succ ep (f + 2) 0 0 0 (by omega), t0]
  simp only [hBne, if_false, Nat.zero_add]
  have e2 : updateLoop ep (f + 2) 1 0 B = updateLoop ep (f + 1) 2 0 (B + B) := by
    show updateLoop ep (f + 1 + 1) 1 0 B = _
    rw [updateLoop_succ ep (f + 1) 1 0 B (by omega), t1]
    simp only [hBne, if_false]
  have e3 : updateLoop ep (f + 1) 2 0 (B + B) = .done (B + B) 3 := by
    show updateLoop ep (f + 1) 2 0 (B + B) = _
    rw [updateLoop_succ ep f 2 0 (B + B) (by omega), t2]
    simp
  rw [e2, e3]
  congr 1
  omega

theorem C4_update_loop_convergence_witness :
    updateLoop (fun i => if i < 2 then RpcResponse.ok 1000 else RpcResponse.ok 0) 3 0 0 0
      = LoopResult.done 2000 3 :=
  C4_update_loop_convergence
    (fun i => if i < 2 then RpcResponse.ok 1000 else RpcResponse.ok 0) 1000 3
    (by decide) (by decide) (by decide) (by omega) (by omega)

/-! ## Dataset result and printed report (`process_dataset`) -/

/-- `DatasetResult` dataclass. -/
structure DatasetResult where
  dataset_number : Nat
  opt_pages : Nat
  opt_documents : Nat
  dat_records : Nat
  dat_columns : List String
  documents : List Document
  dat_records_list : List DATRecord
  dat_opt_match : Bool
  multi_page_docs : Nat
  max_page_count : Nat
  efta_start : String
  efta_end : String
deriving DecidableEq, Repr

/-- The pure aggregation step of `process_dataset` after both files
are parsed (source lines 317–342). -/
def buildDatasetResult (ds_num : Nat) (opt_pages : List OPTPage) (volume_base : String)
    (columns : List String) (dat_records : List DATRecord) : DatasetResult :=
  let documents := build_documents_from_opt opt_pages volume_base
  { dataset_number := ds_num
    opt_pages := opt_pages.length
    opt_documents := documents.length
    dat_records := dat_records.length
    dat_columns := columns
    documents := documents
    dat_records_list := dat_records
    dat_opt_match := cross_validate documents dat_records
    multi_page_docs := (documents.filter (fun d => decide (1 < d.page_count))).length
    max_page_count := (documents.map Document.page_count).foldl max 0
    efta_start := match documents with
      | [] => "?"
      | d :: _ => d.efta_start
    efta_end := match documents.getLast? with
      | none => "?"
      | some d => d.efta_end }

/-- The content of one line printed by `process_dataset`'s per-dataset
summary (source lines 344–352). -/
inductive ReportItem where
  | pages (n : Nat)
  | docs (n : Nat)
  | multiPage (n : Nat)
  | maxPages (n : Nat)
  | eftaRange (a b : String)
  | datColumns (cols : List String)
  | datRecords (n : Nat)
  | datOptMatch (s : String)
deriving DecidableEq, Repr

/-- Everything `process_dataset` prints about a dataset after parsing:
counts, the EFTA range, the declared columns, and the match flag
rendered as `"YES"` or `"NO - MISMATCH"`.  This is the whole console
report for the dataset — there is no further output about
cross-validation. -/
def datasetReport (r : DatasetResult) : List ReportItem :=
  [ .pages r.opt_pages, .docs r.opt_documents, .multiPage r.multi_page_docs,
    .maxPages r.max_page_count, .eftaRange r.efta_start r.efta_end,
    .datColumns r.dat_columns, .datRecords r.dat_records,
    .datOptMatch (if r.dat_opt_match then "YES" else "NO - MISMATCH") ]

/-! ## Claim theorems: mismatch reporting -/

/-- Two single-page documents for the reporting counterexample. -/
def pagesC7 : List OPTPage :=
  [ { bates_number := "EFTA001", volume_label := "VOL1",
      image_path := "A/1.TIF", document_break := true, page_count_field := 1 },
    { bates_number := "EFTA002", volume_label := "VOL1",
      image_path := "A/2.TIF", document_break := true, page_count_field := 1 } ]

/-- Metadata agreeing with the first document of `pagesC7`. -/
def recAC7 : DATRecord := ⟨[("Begin Bates", "EFTA001"), ("End Bates", "EFTA001")]⟩

/-- Metadata agreeing with the second document of `pagesC7`. -/
def recBC7 : DATRecord := ⟨[("Begin Bates", "EFTA002"), ("End Bates", "EFTA002")]⟩

/-- Metadata for the first document with a flipped begin identifier. -/
def recAflipC7 : DATRecord := ⟨[("Begin Bates", "WRONG"), ("End Bates", "EFTA001")]⟩

/-- Metadata for the second document with a flipped begin identifier. -/
def recBflipC7 : DATRecord := ⟨[("Begin Bates", "WRONG"), ("End Bates", "EFTA002")]⟩

/-- Records mismatching at positional pair 0. -/
def recsV1C7 : List DATRecord := [recAflipC7, recBC7]

/-- Records mismatching at positional pair 1. -/
def recsV2C7 : List DATRecord := [recAC7, recBflipC7]

/-- **C7 counterexample**  The claim that a mismatch "is reported as a
per-dataset boolean plus a diff-style listing identifying exactly the
mismatched pair" is false: two equal-count inputs whose mismatched
pairs differ (pair 0 versus pair 1) produce byte-for-byte identical
console reports, so the report identifies no pair — it carries only
the boolean flag. -/
theorem C7_mismatch_reporting_counterexample :
    cross_validate (build_documents_from_opt pagesC7 "vb") recsV1C7 = false
    ∧ cross_validate (build_documents_from_opt pagesC7 "vb") recsV2C7 = false
    ∧ ((build_documents_from_opt pagesC7 "vb").zip recsV1C7).map
          (fun dr => pairMatches dr.1 dr.2)
        ≠ ((build_documents_from_opt pagesC7 "vb").zip recsV2C7).map
          (fun dr => pairMatches dr.1 dr.2)
    ∧ datasetReport (buildDatasetResult 1 pagesC7 "vb" ["Begin Bates", "End Bates"] recsV1C7)
        = datasetReport (buildDatasetResult 1 pagesC7 "vb" ["Begin Bates", "End Bates"] recsV2C7) := by
  decide

/-- **C7 (amended)**  Mismatch reporting: given `N` documents and
`N-1` metadata records, cross-validation returns false; given equal
counts and a positional pair that disagrees on a boundary identifier,
cross-validation returns false; the mismatch is reported only as the
per-dataset boolean match flag in the printed report (no listing of
the mismatched pair exists, per the counterexample). -/
theorem C7_mismatch_reporting (documents : List Document)
    (dat_records : List DATRecord) :
    (documents.length = dat_records.length + 1 →
       cross_validate documents dat_records = false)
    ∧ (∀ (d : Document) (r : DATRecord),
        documents.length = dat_records.length →
        (d, r) ∈ documents.zip dat_records → pairMatches d r = false →
        cross_validate documents dat_records = false)
    ∧ (∀ res : DatasetResult,
        ReportItem.datOptMatch (if res.dat_opt_match then "YES" else "NO - MISMATCH")
          ∈ datasetReport res) := by
  refine ⟨?_, ?_, ?_⟩
  · intro hlen
    rw [cross_validate, if_pos (by omega)]
  · intro d r hlen hmem hfalse
    rw [cross_validate, if_neg (by omega)]
    by_contra hall
    have hall' : (documents.zip dat_records).all (fun dr => pairMatches dr.1 dr.2)
        = true := by
      cases h : (documents.zip dat_records).all (fun dr => pairMatches dr.1 dr.2)
      · exact absurd h hall
      · rfl
    have hTrue := List.all_eq_true.mp hall' (d, r) hmem
    rw [hfalse] at hTrue
    simp at hTrue
  · intro res
    simp [datasetReport]

theorem C7_mismatch_reporting_witness :
    cross_validate [docEx] [] = false
    ∧ cross_validate [docEx] [recAflipC7] = false :=
  ⟨(C7_mismatch_reporting [docEx] []).1 (by decide),
   (C7_mismatch_reporting [docEx] [recAflipC7]).2.1 docEx recAflipC7 (by decide)
     (by decide) (by decide)⟩

end ParseDatOpt
